import Mathlib

/-!
Shallow embedding of the `oci-workload-region-migrations` repository:
`src/oci_wrapper.py` (OciClient: run_command with tenacity retry,
wait_for_work_request, wait_for_image_state), `src/workflows.py`
(migrate_compute_instance) and `src/migrate.py` (main / save_state).

Remote subprocess executions are modelled by an oracle stream
`execs : Nat -> ExecOutcome` consumed in program order; parsed CLI
responses are a minimal JSON value type.  Python exceptions are an
explicit `PyExc` type; `Except` models raising.

A load-bearing fact of the source: `src/oci_wrapper.py` imports
`subprocess, json, sys, logging, tenacity` but never `time`, while both
poll loops end their body with `time.sleep(poll_interval)`.  Evaluating
that expression raises `NameError`, so a poll-loop body that neither
returns nor lets an uncaught exception escape always aborts the poll
with `NameError`; no loop ever runs a second iteration.  The embedding
models this faithfully.
-/

namespace OciMig

/-- Parsed JSON value, as returned by `json.loads` on CLI stdout. -/
inductive Json where
  | str (s : String)
  | obj (fields : List (String × Json))
  | null
deriving Repr

/-- Python exception values that the modelled code can raise.
`genericExc` covers `Exception(msg)` raised by the pollers. -/
inductive PyExc where
  | keyError (k : String)
  | typeError
  | attributeError
  | nameError
  | calledProcessError
  | systemExit (code : Nat)
  | genericExc (msg : String)
deriving Repr, DecidableEq

/-- Whether the exception is caught by `except Exception` clauses
(`SystemExit` derives from `BaseException` only). -/
def PyExc.isException : PyExc → Bool
  | .systemExit _ => false
  | _ => true

/-- What the stdout of one `subprocess.run` invocation decodes to. -/
inductive Stdout where
  | empty
  | valid (j : Json)
  | invalid
deriving Repr

/-- Outcome of one `subprocess.run(..., check=True)` call: normal exit,
or `subprocess.CalledProcessError` on nonzero exit. -/
inductive ExecOutcome where
  | ok (out : Stdout)
  | cpe
deriving Repr

/-- Field lookup in a JSON object field list (dict lookup). -/
def jlookup (fields : List (String × Json)) (k : String) : Option Json :=
  (fields.find? (fun p => p.1 == k)).map (·.2)

/-- tenacity 8.2.2 `wait_exponential(multiplier, min, max)` evaluated at a
given `attempt_number`:
`max(max(0, min), min(multiplier * exp_base ** (attempt_number - 1), max))`
with `exp_base = 2`.  All arguments in the source are integers. -/
def wait_exponential (multiplier mn mx attemptNumber : Nat) : Nat :=
  let e := 2 ^ (attemptNumber - 1)
  let result := multiplier * e
  Nat.max (Nat.max 0 mn) (Nat.min result mx)

/-- Result of one `OciClient.run_command` invocation: the returned value
(`none` models Python `None` for empty stdout) or the exception raised;
the number of subprocess executions performed; the tenacity sleep
delays (seconds) between attempts, in order. -/
structure RcOut where
  result : Except PyExc (Option Json)
  attempts : Nat
  delays : List Nat
deriving Repr

/-- The placeholder `run_command` returns under dry-run:
`{"data": {"dry_run_ocid": "ocid1.dryrun.placeholder"}}`. -/
def dryRunPlaceholder : Json :=
  .obj [("data", .obj [("dry_run_ocid", .str "ocid1.dryrun.placeholder")])]

/-- One attempt of `run_command`'s body (the `try` block plus its
handlers): `CalledProcessError` is logged and re-raised (retryable);
stdout that fails `json.loads` hits the `except json.JSONDecodeError`
handler which calls `sys.exit(1)`, i.e. raises `SystemExit(1)`. -/
def attemptOnce (e : ExecOutcome) : Except PyExc (Option Json) :=
  match e with
  | .ok .empty => .ok none
  | .ok (.valid j) => .ok (some j)
  | .ok .invalid => .error (.systemExit 1)
  | .cpe => .error .calledProcessError

/-- tenacity retry loop of `run_command`:
`retry(wait=wait_exponential(multiplier=2, min=5, max=60),
stop=stop_after_attempt(5), retry=retry_if_exception_type(CalledProcessError),
reraise=True)`.  `attemptNumber` is the tenacity attempt number of the
next attempt (the n-th attempt consumes `execs (n-1)`); `remaining` is
how many attempts `stop_after_attempt` still allows.  Only a
`CalledProcessError` outcome is retried; any other exception (here only
`SystemExit`) propagates at once; after the final allowed attempt the
`CalledProcessError` is re-raised (`reraise=True`). -/
def retryLoop (execs : Nat → ExecOutcome) (attemptNumber : Nat) :
    (remaining : Nat) → RcOut
  | 0 => ⟨.error .calledProcessError, 0, []⟩
  | r + 1 =>
    match attemptOnce (execs (attemptNumber - 1)) with
    | .ok v => ⟨.ok v, 1, []⟩
    | .error .calledProcessError =>
      if r = 0 then
        ⟨.error .calledProcessError, 1, []⟩
      else
        let d := wait_exponential 2 5 60 attemptNumber
        let rest := retryLoop execs (attemptNumber + 1) r
        ⟨rest.result, rest.attempts + 1, d :: rest.delays⟩
    | .error e => ⟨.error e, 1, []⟩

/-- Model of `OciClient.run_command`: under dry-run, no subprocess execution is
performed and the placeholder is returned; otherwise the tenacity retry
loop runs up to 5 attempts. -/
def run_command (dryRun : Bool) (execs : Nat → ExecOutcome) : RcOut :=
  if dryRun then ⟨.ok (some dryRunPlaceholder), 0, []⟩
  else retryLoop execs 1 5

/-- Evaluation of `data.get("data", \x7b\x7d).get(key)` applied to the value returned by
`run_command`.  Raises `AttributeError` when `.get` is invoked on
`None` or any non-dict value. -/
def getNested (data : Option Json) (key : String) : Except PyExc (Option Json) :=
  match data with
  | none => .error .attributeError
  | some (.obj fields) =>
    match (jlookup fields "data").getD (.obj []) with
    | .obj inner => .ok (jlookup inner key)
    | _ => .error .attributeError
  | some _ => .error .attributeError

/-- Python `==` between a fetched JSON value (possibly `None`) and a
state-name string: true only for an equal JSON string. -/
def jeqStr (v : Option Json) (s : String) : Bool :=
  match v with
  | some (.str t) => t == s
  | _ => false

/-- Result of one poller invocation (`wait_for_image_state` /
`wait_for_work_request`): value returned or exception raised; the
number of fetches (`run_command` invocations) performed; subprocess
executions consumed; retry delays incurred inside the fetches; and the
exception, if any, that the loop's own `except Exception` handler
caught and swallowed before control reached `time.sleep`. -/
structure PollOut where
  result : Except PyExc (Option Json)
  fetches : Nat
  execsUsed : Nat
  delays : List Nat
  caught : Option PyExc
deriving Repr

/-- The synthetic payload `wait_for_image_state` returns under dry-run.
(The source echoes the polled image id in the `"id"` field; no caller
reads it, and it is modelled as `null` here.) -/
def dryRunImageData : Json :=
  .obj [("data", .obj [("id", .null),
    ("operating-system", .str "DRY_RUN_OS"),
    ("operating-system-version", .str "DRY_RUN_OS_VER"),
    ("launch-mode", .str "DRY_RUN_LAUNCH_MODE")])]

/-- Model of `OciClient.wait_for_image_state(image_id, target_state)`.

Source structure: `current_state = ""` then
`while current_state != target_state:` whose body is: the dry-run
short-circuit; a `try` block that fetches via `run_command`, extracts
`data.get("data", \x7b\x7d).get("lifecycle-state")`, returns `data` when it
equals the target, and raises `Exception("ImageFailed: ...")` when it
is `"FAULTED"` or `"DELETED"`; an `except Exception` handler that logs
"will retry"; and finally `time.sleep(poll_interval)`.

Because `time` is not imported in this module, `time.sleep` raises
`NameError`; every iteration therefore ends in a return, an uncaught
exception (`SystemExit` escapes `except Exception`), or `NameError`, so
the `while` body never runs twice and the function is its first
iteration.  When `target_state = ""` the loop is never entered and the
function returns `None`. -/
def wait_for_image_state (dryRun : Bool) (targetState : String)
    (execs : Nat → ExecOutcome) : PollOut :=
  if targetState == "" then ⟨.ok none, 0, 0, [], none⟩
  else if dryRun then ⟨.ok (some dryRunImageData), 0, 0, [], none⟩
  else
    let rc := run_command false execs
    match rc.result with
    | .error (.systemExit c) =>
      ⟨.error (.systemExit c), 1, rc.attempts, rc.delays, none⟩
    | .error e =>
      ⟨.error .nameError, 1, rc.attempts, rc.delays, some e⟩
    | .ok data =>
      match getNested data "lifecycle-state" with
      | .error e => ⟨.error .nameError, 1, rc.attempts, rc.delays, some e⟩
      | .ok st =>
        if jeqStr st targetState then
          ⟨.ok data, 1, rc.attempts, rc.delays, none⟩
        else if jeqStr st "FAULTED" || jeqStr st "DELETED" then
          ⟨.error .nameError, 1, rc.attempts, rc.delays,
            some (.genericExc "ImageFailed")⟩
        else
          ⟨.error .nameError, 1, rc.attempts, rc.delays, none⟩

/-- Model of `OciClient.wait_for_work_request(work_request_id)`.

Source structure: `status = ""` then `while status != "SUCCEEDED":`
(always entered) whose body mirrors `wait_for_image_state` with status
key `"status"`, success `"SUCCEEDED"`, failures `"FAILED"`/`"CANCELED"`
raising `Exception("WorkRequestFailed: ...")`, the same `except
Exception` handler, and the same `time.sleep` on the unbound name
`time`.  Under dry-run it returns bare (`None`). -/
def wait_for_work_request (dryRun : Bool) (execs : Nat → ExecOutcome) : PollOut :=
  if dryRun then ⟨.ok none, 0, 0, [], none⟩
  else
    let rc := run_command false execs
    match rc.result with
    | .error (.systemExit c) =>
      ⟨.error (.systemExit c), 1, rc.attempts, rc.delays, none⟩
    | .error e =>
      ⟨.error .nameError, 1, rc.attempts, rc.delays, some e⟩
    | .ok data =>
      match getNested data "status" with
      | .error e => ⟨.error .nameError, 1, rc.attempts, rc.delays, some e⟩
      | .ok st =>
        if jeqStr st "SUCCEEDED" then
          ⟨.ok data, 1, rc.attempts, rc.delays, none⟩
        else if jeqStr st "FAILED" || jeqStr st "CANCELED" then
          ⟨.error .nameError, 1, rc.attempts, rc.delays,
            some (.genericExc "WorkRequestFailed")⟩
        else
          ⟨.error .nameError, 1, rc.attempts, rc.delays, none⟩

/-! ### Progress record and workflow (`src/workflows.py`, `src/migrate.py`) -/

/-- A value stored in the progress-record dict: a value taken from a
response (`j`), a `True` flag (`b`), or the `source_image_details`
sub-dict with keys `os`, `os_ver`, `launch_mode`. -/
inductive StVal where
  | j (v : Json)
  | b (v : Bool)
  | details (os osVer launchMode : Json)
deriving Repr

/-- The progress record: an insertion-ordered string-keyed dict. -/
abbrev St := List (String × StVal)

/-- Python `key in state`. -/
def stHas (st : St) (k : String) : Bool :=
  st.any (fun p => p.1 == k)

/-- Python `state.get(key)`-style lookup. -/
def stGet? (st : St) (k : String) : Option StVal :=
  (st.find? (fun p => p.1 == k)).map (·.2)

/-- Python `state[key] = v`: replaces the value in place when the key
is present (keeping its position), appends the new key otherwise. -/
def stSet : St → String → StVal → St
  | [], k, v => [(k, v)]
  | p :: rest, k, v =>
    if p.1 == k then (k, v) :: rest else p :: stSet rest k v

/-- Python `state[key]`: `KeyError` when absent. -/
def stGetE (st : St) (k : String) : Except PyExc StVal :=
  match stGet? st k with
  | some v => .ok v
  | none => .error (.keyError k)

/-- Python truthiness of a stored value, as used by the
`not state['...']` guards of steps 2 and 3. -/
def StVal.truthy : StVal → Bool
  | .j (.str v) => !(v == "")
  | .j (.obj fields) => !fields.isEmpty
  | .j .null => false
  | .b v => v
  | .details _ _ _ => true

/-- Truth value of `k in state and state[k]`: the source guard
`'k' not in state or not state[k]` of steps 2 and 3 is the negation of
this. -/
def truthyFlag (st : St) (k : String) : Bool :=
  match stGet? st k with
  | some v => v.truthy
  | none => false

/-- Python subscript `data[k]` on a `run_command` return value:
`TypeError` on `None` or a non-dict, `KeyError` on a missing key. -/
def pySub (data : Option Json) (k : String) : Except PyExc Json :=
  match data with
  | none => .error .typeError
  | some (.obj fields) =>
    match jlookup fields k with
    | some v => .ok v
    | none => .error (.keyError k)
  | some _ => .error .typeError

/-- Python subscript chain `data[k1][k2]`. -/
def pySub2 (data : Option Json) (k1 k2 : String) : Except PyExc Json := do
  let inner ← pySub data k1
  pySub (some inner) k2

/-- Python subscript on a stored progress value, as used by
`img_details['os']` etc. in step 4. -/
def stvalSub : StVal → String → Except PyExc Json
  | .details os _ _, "os" => .ok os
  | .details _ osVer _, "os_ver" => .ok osVer
  | .details _ _ launchMode, "launch_mode" => .ok launchMode
  | .details _ _ _, k => .error (.keyError k)
  | .j (.obj fields), k =>
    match jlookup fields k with
    | some v => .ok v
    | none => .error (.keyError k)
  | .j _, _ => .error .typeError
  | .b _, _ => .error .typeError

/-- The migration configuration (`config.json` keys the workflow reads).
The values are opaque to the modelled control flow: they only appear
inside command argument lists and log strings. -/
structure Config where
  source_region : String
  target_region : String
  source_compartment_id : String
  source_instance_id : String
  migration_bucket_name : String
  target_compartment_id : String
  target_subnet_id : String
  target_ad : String
  target_instance_shape : String
  new_instance_name : String
  new_image_name : String
deriving Repr

/-- Which `OciClient` method a workflow call site invokes. -/
inductive Method where
  | runCmd
  | waitImage
  | waitWorkReq
deriving Repr, DecidableEq

/-- Observable events of a run, in chronological order: a client-method
invocation tagged with the workflow step (1-5, 6 = the final
instance-RUNNING wait) that issued it, a key committed to the progress
record, and a `save_state` call by the driver. -/
inductive Ev where
  | call (step : Nat) (m : Method)
  | commit (key : String)
  | save
deriving Repr, DecidableEq

/-- An `OciClient` as constructed by the driver (the region only enters
command text and logs). -/
structure Client where
  region : String
  dryRun : Bool
deriving Repr

/-- Mutable context threaded through the workflow: the progress record,
the index of the next subprocess execution in the oracle stream, and
the event trace so far. -/
structure W where
  st : St
  execIdx : Nat
  tr : List Ev
deriving Repr

/-- Invoke `run_command` on a client at a call site of step `step`. -/
def callRunCmd (step : Nat) (c : Client) (execs : Nat → ExecOutcome)
    (w : W) : Except PyExc (Option Json) × W :=
  let rc := run_command c.dryRun (fun n => execs (w.execIdx + n))
  (rc.result,
    { w with execIdx := w.execIdx + rc.attempts,
             tr := w.tr ++ [.call step .runCmd] })

/-- Invoke `wait_for_image_state` at a call site of step `step`. -/
def callWaitImage (step : Nat) (c : Client) (targetState : String)
    (execs : Nat → ExecOutcome) (w : W) : Except PyExc (Option Json) × W :=
  let po := wait_for_image_state c.dryRun targetState (fun n => execs (w.execIdx + n))
  (po.result,
    { w with execIdx := w.execIdx + po.execsUsed,
             tr := w.tr ++ [.call step .waitImage] })

/-- Invoke `wait_for_work_request` at a call site of step `step`. -/
def callWaitWorkReq (step : Nat) (c : Client) (execs : Nat → ExecOutcome)
    (w : W) : Except PyExc (Option Json) × W :=
  let po := wait_for_work_request c.dryRun (fun n => execs (w.execIdx + n))
  (po.result,
    { w with execIdx := w.execIdx + po.execsUsed,
             tr := w.tr ++ [.call step .waitWorkReq] })

/-- Step 1: create the custom image from the source instance.
Guard: `'source_image_id' not in state`.  On the action path the
response's `["data"]["id"]` is committed as `source_image_id`.  (The
skip branch only logs the present `state['source_image_id']`.) -/
def step1 (ash : Client) (execs : Nat → ExecOutcome) (w : W) :
    Except (PyExc × W) W :=
  if stHas w.st "source_image_id" then .ok w
  else
    let (res, w1) := callRunCmd 1 ash execs w
    match res with
    | .error e => .error (e, w1)
    | .ok image_data =>
      match pySub2 image_data "data" "id" with
      | .error e => .error (e, w1)
      | .ok idJ =>
        .ok { w1 with st := stSet w1.st "source_image_id" (.j idJ),
                      tr := w1.tr ++ [.commit "source_image_id"] }

/-- Step 2: wait for the source image to be AVAILABLE.
Guard: `'source_image_available' not in state or not
state['source_image_available']`.  The action logs
`state['source_image_id']` (a subscript), waits for the image, then
commits `source_image_details` (the `operating-system`,
`operating-system-version` and `launch-mode` fields of the returned
data) followed by `source_image_available = True`. -/
def step2 (ash : Client) (execs : Nat → ExecOutcome) (w : W) :
    Except (PyExc × W) W :=
  if truthyFlag w.st "source_image_available" then .ok w
  else
    match stGetE w.st "source_image_id" with
    | .error e => .error (e, w)
    | .ok _ =>
      let (res, w1) := callWaitImage 2 ash "AVAILABLE" execs w
      match res with
      | .error e => .error (e, w1)
      | .ok image_details =>
        match pySub2 image_details "data" "operating-system" with
        | .error e => .error (e, w1)
        | .ok os =>
          match pySub2 image_details "data" "operating-system-version" with
          | .error e => .error (e, w1)
          | .ok osVer =>
            match pySub2 image_details "data" "launch-mode" with
            | .error e => .error (e, w1)
            | .ok launchMode =>
              .ok { w1 with
                st := stSet (stSet w1.st "source_image_details"
                        (.details os osVer launchMode))
                        "source_image_available" (.b true),
                tr := w1.tr ++ [.commit "source_image_details",
                                .commit "source_image_available"] }

/-- Step 3: export the image to object storage and wait for the work
request.  Guard: `'image_export_complete' not in state or not
state['image_export_complete']`.  The action reads
`state['source_image_id']` (command build), runs the export command,
extracts the top-level `["opc-work-request-id"]`, waits for the work
request, then commits `image_export_complete = True`. -/
def step3 (ash : Client) (execs : Nat → ExecOutcome) (w : W) :
    Except (PyExc × W) W :=
  if truthyFlag w.st "image_export_complete" then .ok w
  else
    match stGetE w.st "source_image_id" with
    | .error e => .error (e, w)
    | .ok _ =>
      let (res, w1) := callRunCmd 3 ash execs w
      match res with
      | .error e => .error (e, w1)
      | .ok export_data =>
        match pySub export_data "opc-work-request-id" with
        | .error e => .error (e, w1)
        | .ok _ =>
          let (res2, w2) := callWaitWorkReq 3 ash execs w1
          match res2 with
          | .error e => .error (e, w2)
          | .ok _ =>
            .ok { w2 with st := stSet w2.st "image_export_complete" (.b true),
                          tr := w2.tr ++ [.commit "image_export_complete"] }

/-- Step 4: import the image in the target region.
Guard: `'target_image_id' not in state`.  The action reads
`state['source_image_details']` and its `os`, `os_ver` and
`launch_mode` entries (command build), runs the import command, commits
the response's `["data"]["id"]` as `target_image_id`, and only then
waits for the imported image to be AVAILABLE (the wait's return value
is discarded). -/
def step4 (bog : Client) (execs : Nat → ExecOutcome) (w : W) :
    Except (PyExc × W) W :=
  if stHas w.st "target_image_id" then .ok w
  else
    match stGetE w.st "source_image_details" with
    | .error e => .error (e, w)
    | .ok imgDetails =>
      match stvalSub imgDetails "os" with
      | .error e => .error (e, w)
      | .ok _ =>
        match stvalSub imgDetails "os_ver" with
        | .error e => .error (e, w)
        | .ok _ =>
          match stvalSub imgDetails "launch_mode" with
          | .error e => .error (e, w)
          | .ok _ =>
            let (res, w1) := callRunCmd 4 bog execs w
            match res with
            | .error e => .error (e, w1)
            | .ok import_data =>
              match pySub2 import_data "data" "id" with
              | .error e => .error (e, w1)
              | .ok idJ =>
                let w2 : W :=
                  { w1 with st := stSet w1.st "target_image_id" (.j idJ),
                            tr := w1.tr ++ [.commit "target_image_id"] }
                let (res2, w3) := callWaitImage 4 bog "AVAILABLE" execs w2
                match res2 with
                | .error e => .error (e, w3)
                | .ok _ => .ok w3

/-- Step 5: launch the new instance in the target region.
Guard: `'target_instance_id' not in state`.  The action reads
`state['target_image_id']` (command build), runs the launch command and
commits the response's `["data"]["id"]` as `target_instance_id`. -/
def step5 (bog : Client) (execs : Nat → ExecOutcome) (w : W) :
    Except (PyExc × W) W :=
  if stHas w.st "target_instance_id" then .ok w
  else
    match stGetE w.st "target_image_id" with
    | .error e => .error (e, w)
    | .ok _ =>
      let (res, w1) := callRunCmd 5 bog execs w
      match res with
      | .error e => .error (e, w1)
      | .ok launch_data =>
        match pySub2 launch_data "data" "id" with
        | .error e => .error (e, w1)
        | .ok idJ =>
          .ok { w1 with st := stSet w1.st "target_instance_id" (.j idJ),
                        tr := w1.tr ++ [.commit "target_instance_id"] }

/-- Final wait for the instance to be RUNNING (step tag 6).
Guard: `'target_instance_running' not in state` (presence only).  The
action reads `state['target_instance_id']` (command build), runs the
`compute instance wait` command (result discarded) and commits
`target_instance_running = True`. -/
def finalWait (bog : Client) (execs : Nat → ExecOutcome) (w : W) :
    Except (PyExc × W) W :=
  if stHas w.st "target_instance_running" then .ok w
  else
    match stGetE w.st "target_instance_id" with
    | .error e => .error (e, w)
    | .ok _ =>
      let (res, w1) := callRunCmd 6 bog execs w
      match res with
      | .error e => .error (e, w1)
      | .ok _ =>
        .ok { w1 with st := stSet w1.st "target_instance_running" (.b true),
                      tr := w1.tr ++ [.commit "target_instance_running"] }

/-- Model of `workflows.migrate_compute_instance`: the five guarded steps plus
the final RUNNING wait, strictly in order; the closing log line reads
`state['target_instance_id']` (a subscript). -/
def migrate_compute_instance (ash bog : Client)
    (execs : Nat → ExecOutcome) (w : W) : Except (PyExc × W) W :=
  match step1 ash execs w with
  | .error p => .error p
  | .ok w1 =>
    match step2 ash execs w1 with
    | .error p => .error p
    | .ok w2 =>
      match step3 ash execs w2 with
      | .error p => .error p
      | .ok w3 =>
        match step4 bog execs w3 with
        | .error p => .error p
        | .ok w4 =>
          match step5 bog execs w4 with
          | .error p => .error p
          | .ok w5 =>
            match finalWait bog execs w5 with
            | .error p => .error p
            | .ok w6 =>
              match stGetE w6.st "target_instance_id" with
              | .error e => .error (e, w6)
              | .ok _ => .ok w6

/-- Observable outcome of one `migrate.main` invocation running the
compute workflow: the process exit status (0 when `main` returns,
nonzero when a `SystemExit` propagates), the exception raised out of
the workflow if any, the record passed to `save_state` (`none` when
`save_state` was not called), the final in-memory record, the number of
subprocess executions, and the event trace. -/
structure DriverOut where
  exitCode : Nat
  wfExc : Option PyExc
  savedState : Option St
  finalState : St
  execsUsed : Nat
  trace : List Ev
deriving Repr

/-- Model of `migrate.main` around the compute workflow: two clients sharing the
dry-run flag; `try: migrate_compute_instance(...) except Exception:
log` — `SystemExit` is not caught by `except Exception`; `finally: if
not args.dry_run: save_state(state_file, state)`.  A caught exception
leaves `main` returning normally (exit status 0); an uncaught
`SystemExit(c)` still runs the `finally` block and then terminates the
process with status `c`. -/
def mainRun (dryRun : Bool) (cfg : Config) (st0 : St)
    (execs : Nat → ExecOutcome) : DriverOut :=
  let ash : Client := ⟨cfg.source_region, dryRun⟩
  let bog : Client := ⟨cfg.target_region, dryRun⟩
  let w0 : W := ⟨st0, 0, []⟩
  match migrate_compute_instance ash bog execs w0 with
  | .ok w =>
    if dryRun then ⟨0, none, none, w.st, w.execIdx, w.tr⟩
    else ⟨0, none, some w.st, w.st, w.execIdx, w.tr ++ [.save]⟩
  | .error (e, w) =>
    let saved := if dryRun then none else some w.st
    let tr := if dryRun then w.tr else w.tr ++ [.save]
    match e with
    | .systemExit c => ⟨c, some e, saved, w.st, w.execIdx, tr⟩
    | _ => ⟨0, some e, saved, w.st, w.execIdx, tr⟩

/-! ### Derived observations on runs -/

/-- The client-method invocations of a trace, each tagged with the
workflow step that issued it. -/
def callsOf (tr : List Ev) : List (Nat × Method) :=
  tr.filterMap (fun e => match e with
    | .call s m => some (s, m)
    | _ => none)

/-- The keys committed to the progress record along a trace, in order. -/
def commitKeys (tr : List Ev) : List String :=
  tr.filterMap (fun e => match e with
    | .commit k => some k
    | _ => none)

/-- The guard of step `i` (1-5, 6 = final RUNNING wait), true when the
step is considered already done and is skipped: presence of the step's
key, or presence-and-truthiness for steps 2 and 3. -/
def guardDone (i : Nat) (st : St) : Bool :=
  if i = 1 then stHas st "source_image_id"
  else if i = 2 then truthyFlag st "source_image_available"
  else if i = 3 then truthyFlag st "image_export_complete"
  else if i = 4 then stHas st "target_image_id"
  else if i = 5 then stHas st "target_instance_id"
  else if i = 6 then stHas st "target_instance_running"
  else false

/-- The progress-record key step `i`'s guard tests. -/
def guardKey (i : Nat) : String :=
  if i = 1 then "source_image_id"
  else if i = 2 then "source_image_available"
  else if i = 3 then "image_export_complete"
  else if i = 4 then "target_image_id"
  else if i = 5 then "target_instance_id"
  else if i = 6 then "target_instance_running"
  else ""

/-- The progress-record keys step `i` can write. -/
def stepWrites (i : Nat) : List String :=
  if i = 1 then ["source_image_id"]
  else if i = 2 then ["source_image_details", "source_image_available"]
  else if i = 3 then ["image_export_complete"]
  else if i = 4 then ["target_image_id"]
  else if i = 5 then ["target_instance_id"]
  else if i = 6 then ["target_instance_running"]
  else []

/-- A single step's observable footprint: the trace is extended by
events `ts` whose method invocations are all tagged with this step, and
progress keys outside the step's write set are untouched. -/
def StepFrame (j : Nat) (w w' : W) : Prop :=
  ∃ ts, w'.tr = w.tr ++ ts ∧
    (∀ p ∈ callsOf ts, p.1 = j) ∧
    (∀ k, k ∉ stepWrites j → stGet? w'.st k = stGet? w.st k)

/-- Execution between two contexts neither touches step `i`'s guard nor
issues any method invocation attributable to step `i`. -/
def Protected (i : Nat) (w w' : W) : Prop :=
  guardDone i w'.st = guardDone i w.st ∧
  ∀ p ∈ callsOf w'.tr, p ∈ callsOf w.tr ∨ p.1 ≠ i

/-- Holds when `w'` is a possible outcome context of a step computation: the value
on normal return, or the context at the uncaught raise. -/
def stepRes (r : Except (PyExc × W) W) (w' : W) : Prop :=
  r = .ok w' ∨ ∃ e, r = .error (e, w')

/-- The step tags of the method invocations in the trace are
non-decreasing and bounded by `b`. -/
def CallsLe (b : Nat) (w : W) : Prop :=
  List.Pairwise (· ≤ ·) ((callsOf w.tr).map Prod.fst) ∧
  ∀ t ∈ (callsOf w.tr).map Prod.fst, t ≤ b

/-! ### Concrete fixtures for witnesses and counterexamples -/

/-- A concrete migration configuration. -/
def cfg0 : Config :=
  ⟨"us-ashburn-1", "sa-bogota-1", "cmp-src", "inst-src", "bucket",
   "cmp-tgt", "subnet-tgt", "AD-1", "VM.Standard.E4.Flex",
   "inst-new", "img-new"⟩

/-- Shorthand for a JSON object. -/
def jobj (fields : List (String × Json)) : Json := .obj fields

/-- An execution returning `{"data": {"lifecycle-state": s}}`. -/
def stateResp (s : String) : ExecOutcome :=
  .ok (.valid (jobj [("data", jobj [("lifecycle-state", .str s)])]))

/-- An execution returning `{"data": {"status": s}}`. -/
def statusResp (s : String) : ExecOutcome :=
  .ok (.valid (jobj [("data", jobj [("status", .str s)])]))

/-- The subprocess outcomes of a fully successful non-dry compute
migration from an empty record, in program order: create image, fetch
source image (AVAILABLE with metadata), export, fetch work request
(SUCCEEDED), import, fetch target image (AVAILABLE), launch, final
instance wait. -/
def okRespList : List ExecOutcome :=
  [ .ok (.valid (jobj [("data", jobj [("id", .str "img-src")])])),
    .ok (.valid (jobj [("data", jobj
      [("lifecycle-state", .str "AVAILABLE"),
       ("operating-system", .str "Oracle Linux"),
       ("operating-system-version", .str "8"),
       ("launch-mode", .str "PARAVIRTUALIZED")])])),
    .ok (.valid (jobj [("opc-work-request-id", .str "wr-1")])),
    statusResp "SUCCEEDED",
    .ok (.valid (jobj [("data", jobj [("id", .str "img-tgt")])])),
    stateResp "AVAILABLE",
    .ok (.valid (jobj [("data", jobj [("id", .str "inst-1")])])),
    .ok .empty ]

/-- Oracle stream of the successful run. -/
def execsOk : Nat → ExecOutcome := fun n => okRespList.getD n (.ok .empty)

/-- Oracle whose every execution fails with `CalledProcessError`. -/
def execsCpe : Nat → ExecOutcome := fun _ => .cpe

/-- Oracle whose every execution exits 0 with unparseable stdout. -/
def execsInvalid : Nat → ExecOutcome := fun _ => .ok .invalid

/-- Oracle whose every fetch observes lifecycle-state `FAULTED`. -/
def execsFaulted : Nat → ExecOutcome := fun _ => stateResp "FAULTED"

/-- Oracle whose every fetch observes work-request status `FAILED`. -/
def execsWrFailed : Nat → ExecOutcome := fun _ => statusResp "FAILED"

/-- Oracle whose every fetch observes lifecycle-state `PROVISIONING`. -/
def execsProvisioning : Nat → ExecOutcome := fun _ => stateResp "PROVISIONING"

/-- The fetched-state sequence `PROVISIONING, PROVISIONING, AVAILABLE`
(one execution per fetch; `AVAILABLE` from the third on). -/
def execsPPA : Nat → ExecOutcome := fun n =>
  [stateResp "PROVISIONING", stateResp "PROVISIONING"].getD n (stateResp "AVAILABLE")

/-- Oracle whose every fetch observes work-request status
`IN_PROGRESS` (a non-terminal status). -/
def execsWrInProgress : Nat → ExecOutcome := fun _ => statusResp "IN_PROGRESS"

/-- A resumed progress record: steps 1-4 committed (including
`target_image_id`), step 5 and the final wait not yet done. -/
def stResume : St :=
  [("source_image_id", .j (.str "img-src")),
   ("source_image_details",
    .details (.str "Oracle Linux") (.str "8") (.str "PARAVIRTUALIZED")),
   ("source_image_available", .b true),
   ("image_export_complete", .b true),
   ("target_image_id", .j (.str "img-tgt"))]

/-- Subprocess outcomes for the resumed run: the launch response and
the final instance-wait response. -/
def execsResume : Nat → ExecOutcome := fun n =>
  [ExecOutcome.ok (.valid (jobj [("data", jobj [("id", .str "inst-1")])])),
   ExecOutcome.ok .empty].getD n (.ok .empty)

/-- The first observation of a `wait_for_image_state` poll is not
terminal: the fetch raised a (caught) `CalledProcessError`, or the
extracted lifecycle-state raised, or the state equals neither the
target nor a failure state. -/
def imageFirstObsNonTerminal (target : String)
    (execs : Nat → ExecOutcome) : Prop :=
  (run_command false execs).result = .error .calledProcessError ∨
  ∃ data, (run_command false execs).result = .ok data ∧
    ((∃ e, getNested data "lifecycle-state" = .error e) ∨
     (∃ st, getNested data "lifecycle-state" = .ok st ∧
        jeqStr st target = false ∧ jeqStr st "FAULTED" = false ∧
        jeqStr st "DELETED" = false))

/-- The first observation of a `wait_for_work_request` poll is not
terminal. -/
def wrFirstObsNonTerminal (execs : Nat → ExecOutcome) : Prop :=
  (run_command false execs).result = .error .calledProcessError ∨
  ∃ data, (run_command false execs).result = .ok data ∧
    ((∃ e, getNested data "status" = .error e) ∨
     (∃ st, getNested data "status" = .ok st ∧
        jeqStr st "SUCCEEDED" = false ∧ jeqStr st "FAILED" = false ∧
        jeqStr st "CANCELED" = false))

/-! ### Association-list (progress record) lemmas -/

theorem stGet?_stSet_self (st : St) (k : String) (v : StVal) :
    stGet? (stSet st k v) k = some v := by
  induction st with
  | nil => simp [stSet, stGet?]
  | cons p rest ih =>
    by_cases h : p.1 == k
    · simp [stSet, h, stGet?]
    · simp only [stSet, h, Bool.false_eq_true, if_false, stGet?,
        List.find?] at ih ⊢
      simp [h, ih]

theorem stGet?_stSet_ne (st : St) (k k' : String) (v : StVal)
    (h : k ≠ k') : stGet? (stSet st k v) k' = stGet? st k' := by
  induction st with
  | nil => simp [stSet, stGet?, h]
  | cons p rest ih =>
    by_cases hp : p.1 == k
    · have hpk : p.1 = k := by simpa using hp
      have hkk' : (k == k') = false := by simpa using h
      simp [stSet, hp, stGet?, List.find?, hpk, h, hkk']
    · simp only [stSet, hp, Bool.false_eq_true, if_false, stGet?,
        List.find?] at ih ⊢
      by_cases hq : p.1 == k'
      · simp [hq]
      · simp [hq, ih]

theorem stHas_eq_isSome (st : St) (k : String) :
    stHas st k = (stGet? st k).isSome := by
  induction st with
  | nil => simp [stHas, stGet?]
  | cons p rest ih =>
    by_cases hp : p.1 == k
    · simp [stHas, stGet?, List.find?, hp]
    · simp only [stHas, stGet?, List.find?, List.any, hp] at ih ⊢
      simpa using ih

/-- The guard `guardDone i` reads the record only at `guardKey i`. -/
theorem guardDone_congr (i : Nat) (st st' : St)
    (h : stGet? st' (guardKey i) = stGet? st (guardKey i)) :
    guardDone i st' = guardDone i st := by
  unfold guardDone guardKey at *
  split_ifs at * <;>
    simp_all [stHas_eq_isSome, truthyFlag]

/-- A step never writes another step's guard key. -/
theorem guardKey_notin_stepWrites (i j : Nat) (hne : i ≠ j) :
    guardKey i ∉ stepWrites j := by
  intro hmem
  unfold stepWrites at hmem
  unfold guardKey at hmem
  split_ifs at hmem <;> simp_all

/-! ### Step footprint lemmas -/

theorem step1_skip (ash : Client) (execs : Nat → ExecOutcome) (w : W)
    (h : guardDone 1 w.st = true) : step1 ash execs w = .ok w := by
  have h' : stHas w.st "source_image_id" = true := by simpa [guardDone] using h
  unfold step1
  simp [h']

theorem step1_frame (ash : Client) (execs : Nat → ExecOutcome) (w : W) :
    (∀ w', step1 ash execs w = .ok w' → StepFrame 1 w w') ∧
    (∀ e w', step1 ash execs w = .error (e, w') → StepFrame 1 w w') := by
  constructor
  · intro w' h
    unfold step1 at h
    split at h
    · cases h
      exact ⟨[], by simp, by simp [callsOf], fun k _ => rfl⟩
    · simp only [callRunCmd] at h
      split at h
      · cases h
      · split at h
        · cases h
        · cases h
          refine ⟨[.call 1 .runCmd, .commit "source_image_id"], by simp, ?_, ?_⟩
          · intro p hp
            simp [callsOf] at hp
            simp [hp]
          · intro k hk
            have hkne : "source_image_id" ≠ k := fun hkk => hk (by simp [stepWrites, hkk])
            simpa using stGet?_stSet_ne w.st "source_image_id" k _ hkne
  · intro e w' h
    unfold step1 at h
    split at h
    · cases h
    · simp only [callRunCmd] at h
      split at h
      · cases h
        exact ⟨[.call 1 .runCmd], by simp, by simp [callsOf], fun k _ => rfl⟩
      · split at h
        · cases h
          exact ⟨[.call 1 .runCmd], by simp, by simp [callsOf], fun k _ => rfl⟩
        · cases h

theorem step2_skip (ash : Client) (execs : Nat → ExecOutcome) (w : W)
    (h : guardDone 2 w.st = true) : step2 ash execs w = .ok w := by
  have h' : truthyFlag w.st "source_image_available" = true := by
    simpa [guardDone] using h
  unfold step2
  simp [h']

theorem step2_frame (ash : Client) (execs : Nat → ExecOutcome) (w : W) :
    (∀ w', step2 ash execs w = .ok w' → StepFrame 2 w w') ∧
    (∀ e w', step2 ash execs w = .error (e, w') → StepFrame 2 w w') := by
  constructor
  · intro w' h
    unfold step2 at h
    split at h
    · cases h
      exact ⟨[], by simp, by simp [callsOf], fun k _ => rfl⟩
    · simp only [callWaitImage] at h
      split at h
      · cases h
      · split at h
        · cases h
        · split at h
          · cases h
          · split at h
            · cases h
            · split at h
              · cases h
              · cases h
                refine ⟨[.call 2 .waitImage, .commit "source_image_details",
                  .commit "source_image_available"], by simp, ?_, ?_⟩
                · intro p hp
                  simp [callsOf] at hp
                  simp [hp]
                · intro k hk
                  simp [stepWrites] at hk
                  rw [stGet?_stSet_ne _ _ _ _ (fun hkk => hk.2 hkk.symm),
                    stGet?_stSet_ne _ _ _ _ (fun hkk => hk.1 hkk.symm)]
  · intro e w' h
    unfold step2 at h
    split at h
    · cases h
    · simp only [callWaitImage] at h
      split at h
      · cases h
        exact ⟨[], by simp, by simp [callsOf], fun k _ => rfl⟩
      · split at h
        · cases h
          exact ⟨[.call 2 .waitImage], by simp, by simp [callsOf], fun k _ => rfl⟩
        · split at h
          · cases h
            exact ⟨[.call 2 .waitImage], by simp, by simp [callsOf], fun k _ => rfl⟩
          · split at h
            · cases h
              exact ⟨[.call 2 .waitImage], by simp, by simp [callsOf], fun k _ => rfl⟩
            · split at h
              · cases h
                exact ⟨[.call 2 .waitImage], by simp, by simp [callsOf], fun k _ => rfl⟩
              · cases h

theorem step3_skip (ash : Client) (execs : Nat → ExecOutcome) (w : W)
    (h : guardDone 3 w.st = true) : step3 ash execs w = .ok w := by
  have h' : truthyFlag w.st "image_export_complete" = true := by
    simpa [guardDone] using h
  unfold step3
  simp [h']

theorem step3_frame (ash : Client) (execs : Nat → ExecOutcome) (w : W) :
    (∀ w', step3 ash execs w = .ok w' → StepFrame 3 w w') ∧
    (∀ e w', step3 ash execs w = .error (e, w') → StepFrame 3 w w') := by
  constructor
  · intro w' h
    unfold step3 at h
    split at h
    · cases h
      exact ⟨[], by simp, by simp [callsOf], fun k _ => rfl⟩
    · simp only [callRunCmd, callWaitWorkReq] at h
      split at h
      · cases h
      · split at h
        · cases h
        · split at h
          · cases h
          · split at h
            · cases h
            · cases h
              refine ⟨[.call 3 .runCmd, .call 3 .waitWorkReq,
                .commit "image_export_complete"], by simp, ?_, ?_⟩
              · intro p hp
                simp [callsOf] at hp
                rcases hp with hp | hp <;> simp [hp]
              · intro k hk
                simp [stepWrites] at hk
                rw [stGet?_stSet_ne _ _ _ _ (fun hkk => hk hkk.symm)]
  · intro e w' h
    unfold step3 at h
    split at h
    · cases h
    · simp only [callRunCmd, callWaitWorkReq] at h
      split at h
      · cases h
        exact ⟨[], by simp, by simp [callsOf], fun k _ => rfl⟩
      · split at h
        · cases h
          exact ⟨[.call 3 .runCmd], by simp, by simp [callsOf], fun k _ => rfl⟩
        · split at h
          · cases h
            exact ⟨[.call 3 .runCmd], by simp, by simp [callsOf], fun k _ => rfl⟩
          · split at h
            · cases h
              refine ⟨[.call 3 .runCmd, .call 3 .waitWorkReq], by simp, ?_,
                fun k _ => rfl⟩
              intro p hp
              simp [callsOf] at hp
              rcases hp with hp | hp <;> simp [hp]
            · cases h

theorem step4_skip (bog : Client) (execs : Nat → ExecOutcome) (w : W)
    (h : guardDone 4 w.st = true) : step4 bog execs w = .ok w := by
  have h' : stHas w.st "target_image_id" = true := by simpa [guardDone] using h
  unfold step4
  simp [h']

theorem step4_frame (bog : Client) (execs : Nat → ExecOutcome) (w : W) :
    (∀ w', step4 bog execs w = .ok w' → StepFrame 4 w w') ∧
    (∀ e w', step4 bog execs w = .error (e, w') → StepFrame 4 w w') := by
  constructor
  · intro w' h
    unfold step4 at h
    split at h
    · cases h
      exact ⟨[], by simp, by simp [callsOf], fun k _ => rfl⟩
    · simp only [callRunCmd, callWaitImage] at h
      split at h
      · cases h
      · split at h
        · cases h
        · split at h
          · cases h
          · split at h
            · cases h
            · split at h
              · cases h
              · split at h
                · cases h
                · split at h
                  · cases h
                  · cases h
                    refine ⟨[.call 4 .runCmd, .commit "target_image_id",
                      .call 4 .waitImage], by simp, ?_, ?_⟩
                    · intro p hp
                      simp [callsOf] at hp
                      rcases hp with hp | hp <;> simp [hp]
                    · intro k hk
                      simp [stepWrites] at hk
                      rw [stGet?_stSet_ne _ _ _ _ (fun hkk => hk hkk.symm)]
  · intro e w' h
    unfold step4 at h
    split at h
    · cases h
    · simp only [callRunCmd, callWaitImage] at h
      split at h
      · cases h
        exact ⟨[], by simp, by simp [callsOf], fun k _ => rfl⟩
      · split at h
        · cases h
          exact ⟨[], by simp, by simp [callsOf], fun k _ => rfl⟩
        · split at h
          · cases h
            exact ⟨[], by simp, by simp [callsOf], fun k _ => rfl⟩
          · split at h
            · cases h
              exact ⟨[], by simp, by simp [callsOf], fun k _ => rfl⟩
            · split at h
              · cases h
                exact ⟨[.call 4 .runCmd], by simp, by simp [callsOf],
                  fun k _ => rfl⟩
              · split at h
                · cases h
                  exact ⟨[.call 4 .runCmd], by simp, by simp [callsOf],
                    fun k _ => rfl⟩
                · split at h
                  · cases h
                    refine ⟨[.call 4 .runCmd, .commit "target_image_id",
                      .call 4 .waitImage], by simp, ?_, ?_⟩
                    · intro p hp
                      simp [callsOf] at hp
                      rcases hp with hp | hp <;> simp [hp]
                    · intro k hk
                      simp [stepWrites] at hk
                      rw [stGet?_stSet_ne _ _ _ _ (fun hkk => hk hkk.symm)]
                  · cases h

theorem step5_skip (bog : Client) (execs : Nat → ExecOutcome) (w : W)
    (h : guardDone 5 w.st = true) : step5 bog execs w = .ok w := by
  have h' : stHas w.st "target_instance_id" = true := by simpa [guardDone] using h
  unfold step5
  simp [h']

theorem step5_frame (bog : Client) (execs : Nat → ExecOutcome) (w : W) :
    (∀ w', step5 bog execs w = .ok w' → StepFrame 5 w w') ∧
    (∀ e w', step5 bog execs w = .error (e, w') → StepFrame 5 w w') := by
  constructor
  · intro w' h
    unfold step5 at h
    split at h
    · cases h
      exact ⟨[], by simp, by simp [callsOf], fun k _ => rfl⟩
    · simp only [callRunCmd] at h
      split at h
      · cases h
      · split at h
        · cases h
        · split at h
          · cases h
          · cases h
            refine ⟨[.call 5 .runCmd, .commit "target_instance_id"],
              by simp, ?_, ?_⟩
            · intro p hp
              simp [callsOf] at hp
              simp [hp]
            · intro k hk
              simp [stepWrites] at hk
              rw [stGet?_stSet_ne _ _ _ _ (fun hkk => hk hkk.symm)]
  · intro e w' h
    unfold step5 at h
    split at h
    · cases h
    · simp only [callRunCmd] at h
      split at h
      · cases h
        exact ⟨[], by simp, by simp [callsOf], fun k _ => rfl⟩
      · split at h
        · cases h
          exact ⟨[.call 5 .runCmd], by simp, by simp [callsOf], fun k _ => rfl⟩
        · split at h
          · cases h
            exact ⟨[.call 5 .runCmd], by simp, by simp [callsOf], fun k _ => rfl⟩
          · cases h

theorem finalWait_skip (bog : Client) (execs : Nat → ExecOutcome) (w : W)
    (h : guardDone 6 w.st = true) : finalWait bog execs w = .ok w := by
  have h' : stHas w.st "target_instance_running" = true := by
    simpa [guardDone] using h
  unfold finalWait
  simp [h']

theorem finalWait_frame (bog : Client) (execs : Nat → ExecOutcome) (w : W) :
    (∀ w', finalWait bog execs w = .ok w' → StepFrame 6 w w') ∧
    (∀ e w', finalWait bog execs w = .error (e, w') → StepFrame 6 w w') := by
  constructor
  · intro w' h
    unfold finalWait at h
    split at h
    · cases h
      exact ⟨[], by simp, by simp [callsOf], fun k _ => rfl⟩
    · simp only [callRunCmd] at h
      split at h
      · cases h
      · split at h
        · cases h
        · cases h
          refine ⟨[.call 6 .runCmd, .commit "target_instance_running"],
            by simp, ?_, ?_⟩
          · intro p hp
            simp [callsOf] at hp
            simp [hp]
          · intro k hk
            simp [stepWrites] at hk
            rw [stGet?_stSet_ne _ _ _ _ (fun hkk => hk hkk.symm)]
  · intro e w' h
    unfold finalWait at h
    split at h
    · cases h
    · simp only [callRunCmd] at h
      split at h
      · cases h
        exact ⟨[], by simp, by simp [callsOf], fun k _ => rfl⟩
      · split at h
        · cases h
          exact ⟨[.call 6 .runCmd], by simp, by simp [callsOf], fun k _ => rfl⟩
        · cases h

/-! ### Composition lemmas -/

theorem callsOf_append (a b : List Ev) :
    callsOf (a ++ b) = callsOf a ++ callsOf b := by
  simp [callsOf, List.filterMap_append]

theorem commitKeys_append (a b : List Ev) :
    commitKeys (a ++ b) = commitKeys a ++ commitKeys b := by
  simp [commitKeys, List.filterMap_append]

theorem protected_refl (i : Nat) (w : W) : Protected i w w :=
  ⟨rfl, fun _ hp => Or.inl hp⟩

theorem protected_trans {i : Nat} {w1 w2 w3 : W}
    (h12 : Protected i w1 w2) (h23 : Protected i w2 w3) :
    Protected i w1 w3 := by
  refine ⟨h23.1.trans h12.1, ?_⟩
  intro p hp
  rcases h23.2 p hp with hin | hne
  · exact h12.2 p hin
  · exact Or.inr hne

theorem stepFrame_protected {i j : Nat} (hne : j ≠ i) {w w' : W}
    (hf : StepFrame j w w') : Protected i w w' := by
  obtain ⟨ts, htr, hcalls, hst⟩ := hf
  refine ⟨?_, ?_⟩
  · exact guardDone_congr i w.st w'.st
      (hst _ (guardKey_notin_stepWrites i j (fun hij => hne hij.symm)))
  · intro p hp
    rw [htr, callsOf_append] at hp
    rcases List.mem_append.mp hp with hin | hts
    · exact Or.inl hin
    · exact Or.inr (by rw [hcalls p hts]; exact hne)

theorem pairwise_le_of_all_eq {l : List Nat} {j : Nat} (h : ∀ t ∈ l, t = j) :
    List.Pairwise (· ≤ ·) l := by
  induction l with
  | nil => exact List.Pairwise.nil
  | cons a l ih =>
    refine List.Pairwise.cons ?_ (ih fun t ht => h t (List.mem_cons_of_mem a ht))
    intro b hb
    rw [h a (List.mem_cons_self a l), h b (List.mem_cons_of_mem a hb)]

theorem callsLe_extend {b j : Nat} (hbj : b ≤ j) {w w' : W}
    (hf : StepFrame j w w') (hc : CallsLe b w) : CallsLe j w' := by
  obtain ⟨ts, htr, hcalls, _⟩ := hf
  obtain ⟨hp, hb⟩ := hc
  have hts : ∀ t ∈ (callsOf ts).map Prod.fst, t = j := by
    intro t ht
    rcases List.mem_map.mp ht with ⟨q, hq, rfl⟩
    exact hcalls q hq
  constructor
  · rw [htr, callsOf_append, List.map_append, List.pairwise_append]
    refine ⟨hp, pairwise_le_of_all_eq hts, ?_⟩
    intro a ha c hc'
    have h1 := hb a ha
    have h2 := hts c hc'
    omega
  · intro t ht
    rw [htr, callsOf_append, List.map_append] at ht
    rcases List.mem_append.mp ht with h1 | h2
    · exact le_trans (hb t h1) hbj
    · rw [hts t h2]

theorem step1_frameAll (ash : Client) (execs : Nat → ExecOutcome) (w w' : W)
    (h : stepRes (step1 ash execs w) w') : StepFrame 1 w w' := by
  rcases h with h | ⟨e, h⟩
  · exact (step1_frame ash execs w).1 w' h
  · exact (step1_frame ash execs w).2 e w' h

theorem step2_frameAll (ash : Client) (execs : Nat → ExecOutcome) (w w' : W)
    (h : stepRes (step2 ash execs w) w') : StepFrame 2 w w' := by
  rcases h with h | ⟨e, h⟩
  · exact (step2_frame ash execs w).1 w' h
  · exact (step2_frame ash execs w).2 e w' h

theorem step3_frameAll (ash : Client) (execs : Nat → ExecOutcome) (w w' : W)
    (h : stepRes (step3 ash execs w) w') : StepFrame 3 w w' := by
  rcases h with h | ⟨e, h⟩
  · exact (step3_frame ash execs w).1 w' h
  · exact (step3_frame ash execs w).2 e w' h

theorem step4_frameAll (bog : Client) (execs : Nat → ExecOutcome) (w w' : W)
    (h : stepRes (step4 bog execs w) w') : StepFrame 4 w w' := by
  rcases h with h | ⟨e, h⟩
  · exact (step4_frame bog execs w).1 w' h
  · exact (step4_frame bog execs w).2 e w' h

theorem step5_frameAll (bog : Client) (execs : Nat → ExecOutcome) (w w' : W)
    (h : stepRes (step5 bog execs w) w') : StepFrame 5 w w' := by
  rcases h with h | ⟨e, h⟩
  · exact (step5_frame bog execs w).1 w' h
  · exact (step5_frame bog execs w).2 e w' h

theorem finalWait_frameAll (bog : Client) (execs : Nat → ExecOutcome) (w w' : W)
    (h : stepRes (finalWait bog execs w) w') : StepFrame 6 w w' := by
  rcases h with h | ⟨e, h⟩
  · exact (finalWait_frame bog execs w).1 w' h
  · exact (finalWait_frame bog execs w).2 e w' h

/-- Master lemma: a step whose guard is satisfied on entry to the run
is never touched — the whole workflow, however it ends, keeps step
`i`'s guard unchanged and issues no method invocation tagged `i`. -/
theorem migrate_protected (ash bog : Client) (execs : Nat → ExecOutcome)
    (w0 w' : W) (i : Nat) (hdone : guardDone i w0.st = true)
    (hr : stepRes (migrate_compute_instance ash bog execs w0) w') :
    Protected i w0 w' := by
  unfold migrate_compute_instance at hr
  rcases h1 : step1 ash execs w0 with p1 | w1
  · obtain ⟨e1, v1⟩ := p1
    simp only [h1] at hr
    rcases hr with hr | ⟨e, hr⟩
    · cases hr
    · cases hr
      by_cases hi : 1 = i
      · rw [step1_skip ash execs w0 (by rw [hi]; exact hdone)] at h1
        cases h1
      · exact stepFrame_protected hi (step1_frameAll ash execs w0 w' (Or.inr ⟨_, h1⟩))
  · have hp1 : Protected i w0 w1 := by
      by_cases hi : 1 = i
      · rw [step1_skip ash execs w0 (by rw [hi]; exact hdone)] at h1
        cases h1
        exact protected_refl i w0
      · exact stepFrame_protected hi ((step1_frame ash execs w0).1 w1 h1)
    simp only [h1] at hr
    rcases h2 : step2 ash execs w1 with p2 | w2
    · obtain ⟨e2, v2⟩ := p2
      simp only [h2] at hr
      rcases hr with hr | ⟨e, hr⟩
      · cases hr
      · cases hr
        by_cases hi : 2 = i
        · rw [step2_skip ash execs w1 (by rw [hi, hp1.1]; exact hdone)] at h2
          cases h2
        · exact protected_trans hp1
            (stepFrame_protected hi (step2_frameAll ash execs w1 w' (Or.inr ⟨_, h2⟩)))
    · have hp2 : Protected i w0 w2 := by
        by_cases hi : 2 = i
        · rw [step2_skip ash execs w1 (by rw [hi, hp1.1]; exact hdone)] at h2
          cases h2
          exact hp1
        · exact protected_trans hp1
            (stepFrame_protected hi ((step2_frame ash execs w1).1 w2 h2))
      simp only [h2] at hr
      rcases h3 : step3 ash execs w2 with p3 | w3
      · obtain ⟨e3, v3⟩ := p3
        simp only [h3] at hr
        rcases hr with hr | ⟨e, hr⟩
        · cases hr
        · cases hr
          by_cases hi : 3 = i
          · rw [step3_skip ash execs w2 (by rw [hi, hp2.1]; exact hdone)] at h3
            cases h3
          · exact protected_trans hp2
              (stepFrame_protected hi (step3_frameAll ash execs w2 w' (Or.inr ⟨_, h3⟩)))
      · have hp3 : Protected i w0 w3 := by
          by_cases hi : 3 = i
          · rw [step3_skip ash execs w2 (by rw [hi, hp2.1]; exact hdone)] at h3
            cases h3
            exact hp2
          · exact protected_trans hp2
              (stepFrame_protected hi ((step3_frame ash execs w2).1 w3 h3))
        simp only [h3] at hr
        rcases h4 : step4 bog execs w3 with p4 | w4
        · obtain ⟨e4, v4⟩ := p4
          simp only [h4] at hr
          rcases hr with hr | ⟨e, hr⟩
          · cases hr
          · cases hr
            by_cases hi : 4 = i
            · rw [step4_skip bog execs w3 (by rw [hi, hp3.1]; exact hdone)] at h4
              cases h4
            · exact protected_trans hp3
                (stepFrame_protected hi (step4_frameAll bog execs w3 w' (Or.inr ⟨_, h4⟩)))
        · have hp4 : Protected i w0 w4 := by
            by_cases hi : 4 = i
            · rw [step4_skip bog execs w3 (by rw [hi, hp3.1]; exact hdone)] at h4
              cases h4
              exact hp3
            · exact protected_trans hp3
                (stepFrame_protected hi ((step4_frame bog execs w3).1 w4 h4))
          simp only [h4] at hr
          rcases h5 : step5 bog execs w4 with p5 | w5
          · obtain ⟨e5, v5⟩ := p5
            simp only [h5] at hr
            rcases hr with hr | ⟨e, hr⟩
            · cases hr
            · cases hr
              by_cases hi : 5 = i
              · rw [step5_skip bog execs w4 (by rw [hi, hp4.1]; exact hdone)] at h5
                cases h5
              · exact protected_trans hp4
                  (stepFrame_protected hi (step5_frameAll bog execs w4 w' (Or.inr ⟨_, h5⟩)))
          · have hp5 : Protected i w0 w5 := by
              by_cases hi : 5 = i
              · rw [step5_skip bog execs w4 (by rw [hi, hp4.1]; exact hdone)] at h5
                cases h5
                exact hp4
              · exact protected_trans hp4
                  (stepFrame_protected hi ((step5_frame bog execs w4).1 w5 h5))
            simp only [h5] at hr
            rcases h6 : finalWait bog execs w5 with p6 | w6
            · obtain ⟨e6, v6⟩ := p6
              simp only [h6] at hr
              rcases hr with hr | ⟨e, hr⟩
              · cases hr
              · cases hr
                by_cases hi : 6 = i
                · rw [finalWait_skip bog execs w5
                    (by rw [hi, hp5.1]; exact hdone)] at h6
                  cases h6
                · exact protected_trans hp5
                    (stepFrame_protected hi (finalWait_frameAll bog execs w5 w' (Or.inr ⟨_, h6⟩)))
            · have hp6 : Protected i w0 w6 := by
                by_cases hi : 6 = i
                · rw [finalWait_skip bog execs w5
                    (by rw [hi, hp5.1]; exact hdone)] at h6
                  cases h6
                  exact hp5
                · exact protected_trans hp5
                    (stepFrame_protected hi ((finalWait_frame bog execs w5).1 w6 h6))
              simp only [h6] at hr
              rcases hL : stGetE w6.st "target_instance_id" with eL | vL
              · simp only [hL] at hr
                rcases hr with hr | ⟨e, hr⟩
                · cases hr
                · cases hr
                  exact hp6
              · simp only [hL] at hr
                rcases hr with hr | ⟨e, hr⟩
                · cases hr
                  exact hp6
                · cases hr

theorem callsLe_mono {b b' : Nat} (h : b ≤ b') {w : W} (hc : CallsLe b w) :
    CallsLe b' w :=
  ⟨hc.1, fun t ht => le_trans (hc.2 t ht) h⟩

/-- Master lemma: the step tags of the method invocations of any run
are non-decreasing (steps execute strictly in their fixed order). -/
theorem migrate_callsLe (ash bog : Client) (execs : Nat → ExecOutcome)
    (w0 w' : W) (h0 : CallsLe 0 w0)
    (hr : stepRes (migrate_compute_instance ash bog execs w0) w') :
    CallsLe 6 w' := by
  unfold migrate_compute_instance at hr
  rcases h1 : step1 ash execs w0 with p1 | w1
  · obtain ⟨e1, v1⟩ := p1
    simp only [h1] at hr
    rcases hr with hr | ⟨e, hr⟩
    · cases hr
    · cases hr
      exact callsLe_mono (by omega)
        (callsLe_extend (by omega)
          (step1_frameAll ash execs w0 w' (Or.inr ⟨_, h1⟩)) h0)
  · have hc1 : CallsLe 1 w1 :=
      callsLe_extend (by omega) (step1_frameAll ash execs w0 w1 (Or.inl h1)) h0
    simp only [h1] at hr
    rcases h2 : step2 ash execs w1 with p2 | w2
    · obtain ⟨e2, v2⟩ := p2
      simp only [h2] at hr
      rcases hr with hr | ⟨e, hr⟩
      · cases hr
      · cases hr
        exact callsLe_mono (by omega)
          (callsLe_extend (by omega)
            (step2_frameAll ash execs w1 w' (Or.inr ⟨_, h2⟩)) hc1)
    · have hc2 : CallsLe 2 w2 :=
        callsLe_extend (by omega) (step2_frameAll ash execs w1 w2 (Or.inl h2)) hc1
      simp only [h2] at hr
      rcases h3 : step3 ash execs w2 with p3 | w3
      · obtain ⟨e3, v3⟩ := p3
        simp only [h3] at hr
        rcases hr with hr | ⟨e, hr⟩
        · cases hr
        · cases hr
          exact callsLe_mono (by omega)
            (callsLe_extend (by omega)
              (step3_frameAll ash execs w2 w' (Or.inr ⟨_, h3⟩)) hc2)
      · have hc3 : CallsLe 3 w3 :=
          callsLe_extend (by omega) (step3_frameAll ash execs w2 w3 (Or.inl h3)) hc2
        simp only [h3] at hr
        rcases h4 : step4 bog execs w3 with p4 | w4
        · obtain ⟨e4, v4⟩ := p4
          simp only [h4] at hr
          rcases hr with hr | ⟨e, hr⟩
          · cases hr
          · cases hr
            exact callsLe_mono (by omega)
              (callsLe_extend (by omega)
                (step4_frameAll bog execs w3 w' (Or.inr ⟨_, h4⟩)) hc3)
        · have hc4 : CallsLe 4 w4 :=
            callsLe_extend (by omega) (step4_frameAll bog execs w3 w4 (Or.inl h4)) hc3
          simp only [h4] at hr
          rcases h5 : step5 bog execs w4 with p5 | w5
          · obtain ⟨e5, v5⟩ := p5
            simp only [h5] at hr
            rcases hr with hr | ⟨e, hr⟩
            · cases hr
            · cases hr
              exact callsLe_mono (by omega)
                (callsLe_extend (by omega)
                  (step5_frameAll bog execs w4 w' (Or.inr ⟨_, h5⟩)) hc4)
          · have hc5 : CallsLe 5 w5 :=
              callsLe_extend (by omega) (step5_frameAll bog execs w4 w5 (Or.inl h5)) hc4
            simp only [h5] at hr
            rcases h6 : finalWait bog execs w5 with p6 | w6
            · obtain ⟨e6, v6⟩ := p6
              simp only [h6] at hr
              rcases hr with hr | ⟨e, hr⟩
              · cases hr
              · cases hr
                exact callsLe_extend (by omega)
                  (finalWait_frameAll bog execs w5 w' (Or.inr ⟨_, h6⟩)) hc5
            · have hc6 : CallsLe 6 w6 :=
                callsLe_extend (by omega)
                  (finalWait_frameAll bog execs w5 w6 (Or.inl h6)) hc5
              simp only [h6] at hr
              rcases hL : stGetE w6.st "target_instance_id" with eL | vL
              · simp only [hL] at hr
                rcases hr with hr | ⟨e, hr⟩
                · cases hr
                · cases hr
                  exact hc6
              · simp only [hL] at hr
                rcases hr with hr | ⟨e, hr⟩
                · cases hr
                  exact hc6
                · cases hr

/-! ### Success-path shape lemmas -/

theorem step1_ok_shape (ash : Client) (execs : Nat → ExecOutcome) (w w' : W)
    (hg : guardDone 1 w.st = false) (h : step1 ash execs w = .ok w') :
    ∃ v, w'.st = stSet w.st "source_image_id" (.j v) ∧
      w'.tr = w.tr ++ [.call 1 .runCmd, .commit "source_image_id"] := by
  have hg' : stHas w.st "source_image_id" = false := by simpa [guardDone] using hg
  unfold step1 at h
  rw [hg'] at h
  simp only [Bool.false_eq_true, if_false, callRunCmd] at h
  split at h
  · cases h
  · split at h
    · cases h
    · cases h
      exact ⟨_, rfl, by simp⟩

theorem step2_ok_shape (ash : Client) (execs : Nat → ExecOutcome) (w w' : W)
    (hg : guardDone 2 w.st = false) (h : step2 ash execs w = .ok w') :
    ∃ os osVer launchMode,
      w'.st = stSet (stSet w.st "source_image_details"
        (.details os osVer launchMode)) "source_image_available" (.b true) ∧
      w'.tr = w.tr ++ [.call 2 .waitImage, .commit "source_image_details",
        .commit "source_image_available"] := by
  have hg' : truthyFlag w.st "source_image_available" = false := by
    simpa [guardDone] using hg
  unfold step2 at h
  rw [hg'] at h
  simp only [Bool.false_eq_true, if_false, callWaitImage] at h
  split at h
  · cases h
  · split at h
    · cases h
    · split at h
      · cases h
      · split at h
        · cases h
        · split at h
          · cases h
          · cases h
            exact ⟨_, _, _, rfl, by simp⟩

theorem step3_ok_shape (ash : Client) (execs : Nat → ExecOutcome) (w w' : W)
    (hg : guardDone 3 w.st = false) (h : step3 ash execs w = .ok w') :
    w'.st = stSet w.st "image_export_complete" (.b true) ∧
      w'.tr = w.tr ++ [.call 3 .runCmd, .call 3 .waitWorkReq,
        .commit "image_export_complete"] := by
  have hg' : truthyFlag w.st "image_export_complete" = false := by
    simpa [guardDone] using hg
  unfold step3 at h
  rw [hg'] at h
  simp only [Bool.false_eq_true, if_false, callRunCmd, callWaitWorkReq] at h
  split at h
  · cases h
  · split at h
    · cases h
    · split at h
      · cases h
      · split at h
        · cases h
        · cases h
          exact ⟨by simp, by simp⟩

theorem step4_ok_shape (bog : Client) (execs : Nat → ExecOutcome) (w w' : W)
    (hg : guardDone 4 w.st = false) (h : step4 bog execs w = .ok w') :
    ∃ v, w'.st = stSet w.st "target_image_id" (.j v) ∧
      w'.tr = w.tr ++ [.call 4 .runCmd, .commit "target_image_id",
        .call 4 .waitImage] := by
  have hg' : stHas w.st "target_image_id" = false := by simpa [guardDone] using hg
  unfold step4 at h
  rw [hg'] at h
  simp only [Bool.false_eq_true, if_false, callRunCmd, callWaitImage] at h
  split at h
  · cases h
  · split at h
    · cases h
    · split at h
      · cases h
      · split at h
        · cases h
        · split at h
          · cases h
          · split at h
            · cases h
            · split at h
              · cases h
              · cases h
                exact ⟨_, rfl, by simp⟩

theorem step5_ok_shape (bog : Client) (execs : Nat → ExecOutcome) (w w' : W)
    (hg : guardDone 5 w.st = false) (h : step5 bog execs w = .ok w') :
    ∃ v, w'.st = stSet w.st "target_instance_id" (.j v) ∧
      w'.tr = w.tr ++ [.call 5 .runCmd, .commit "target_instance_id"] := by
  have hg' : stHas w.st "target_instance_id" = false := by
    simpa [guardDone] using hg
  unfold step5 at h
  rw [hg'] at h
  simp only [Bool.false_eq_true, if_false, callRunCmd] at h
  split at h
  · cases h
  · split at h
    · cases h
    · split at h
      · cases h
      · cases h
        exact ⟨_, rfl, by simp⟩

theorem finalWait_ok_shape (bog : Client) (execs : Nat → ExecOutcome) (w w' : W)
    (hg : guardDone 6 w.st = false) (h : finalWait bog execs w = .ok w') :
    w'.st = stSet w.st "target_instance_running" (.b true) ∧
      w'.tr = w.tr ++ [.call 6 .runCmd, .commit "target_instance_running"] := by
  have hg' : stHas w.st "target_instance_running" = false := by
    simpa [guardDone] using hg
  unfold finalWait at h
  rw [hg'] at h
  simp only [Bool.false_eq_true, if_false, callRunCmd] at h
  split at h
  · cases h
  · split at h
    · cases h
    · cases h
      exact ⟨by simp, by simp⟩

/-- When step 4 is not already done, its trace contribution is one of:
nothing (a raise before the import call returned), the import call
alone (the import or the id extraction raised), or the import call
followed by the `target_image_id` commit followed by the availability
wait — the commit always precedes the wait invocation. -/
theorem step4_shapes (bog : Client) (execs : Nat → ExecOutcome) (w w' : W)
    (hg : guardDone 4 w.st = false)
    (h : stepRes (step4 bog execs w) w') :
    ∃ ts, w'.tr = w.tr ++ ts ∧
      (ts = [] ∨ ts = [.call 4 .runCmd] ∨
       ts = [.call 4 .runCmd, .commit "target_image_id", .call 4 .waitImage]) := by
  have hg' : stHas w.st "target_image_id" = false := by simpa [guardDone] using hg
  rcases h with h | ⟨e, h⟩
  · obtain ⟨v, _, htr⟩ := step4_ok_shape bog execs w w' hg h
    exact ⟨_, htr, Or.inr (Or.inr rfl)⟩
  · unfold step4 at h
    rw [hg'] at h
    simp only [Bool.false_eq_true, if_false, callRunCmd, callWaitImage] at h
    split at h
    · cases h
      exact ⟨[], by simp, Or.inl rfl⟩
    · split at h
      · cases h
        exact ⟨[], by simp, Or.inl rfl⟩
      · split at h
        · cases h
          exact ⟨[], by simp, Or.inl rfl⟩
        · split at h
          · cases h
            exact ⟨[], by simp, Or.inl rfl⟩
          · split at h
            · cases h
              exact ⟨[.call 4 .runCmd], by simp, Or.inr (Or.inl rfl)⟩
            · split at h
              · cases h
                exact ⟨[.call 4 .runCmd], by simp, Or.inr (Or.inl rfl)⟩
              · split at h
                · cases h
                  exact ⟨[.call 4 .runCmd, .commit "target_image_id",
                    .call 4 .waitImage], by simp, Or.inr (Or.inr rfl)⟩
                · cases h

/-- Master lemma: a run of the workflow that starts from the empty
progress record and returns normally produces exactly this event trace
(whatever the remote responses were). -/
theorem migrate_ok_trace (ash bog : Client) (execs : Nat → ExecOutcome) (w' : W)
    (hr : migrate_compute_instance ash bog execs ⟨[], 0, []⟩ = .ok w') :
    w'.tr = [.call 1 .runCmd, .commit "source_image_id",
             .call 2 .waitImage, .commit "source_image_details",
             .commit "source_image_available",
             .call 3 .runCmd, .call 3 .waitWorkReq,
             .commit "image_export_complete",
             .call 4 .runCmd, .commit "target_image_id", .call 4 .waitImage,
             .call 5 .runCmd, .commit "target_instance_id",
             .call 6 .runCmd, .commit "target_instance_running"] := by
  unfold migrate_compute_instance at hr
  rcases h1 : step1 ash execs ⟨[], 0, []⟩ with p1 | w1
  · simp only [h1] at hr
    cases hr
  · simp only [h1] at hr
    obtain ⟨v1, hst1, htr1⟩ :=
      step1_ok_shape ash execs ⟨[], 0, []⟩ w1 (by decide) h1
    rcases h2 : step2 ash execs w1 with p2 | w2
    · simp only [h2] at hr
      cases hr
    · simp only [h2] at hr
      obtain ⟨os, osVer, lm, hst2, htr2⟩ :=
        step2_ok_shape ash execs w1 w2 (by rw [hst1]; rfl) h2
      rcases h3 : step3 ash execs w2 with p3 | w3
      · simp only [h3] at hr
        cases hr
      · simp only [h3] at hr
        obtain ⟨hst3, htr3⟩ :=
          step3_ok_shape ash execs w2 w3 (by rw [hst2, hst1]; rfl) h3
        rcases h4 : step4 bog execs w3 with p4 | w4
        · simp only [h4] at hr
          cases hr
        · simp only [h4] at hr
          obtain ⟨v4, hst4, htr4⟩ :=
            step4_ok_shape bog execs w3 w4 (by rw [hst3, hst2, hst1]; rfl) h4
          rcases h5 : step5 bog execs w4 with p5 | w5
          · simp only [h5] at hr
            cases hr
          · simp only [h5] at hr
            obtain ⟨v5, hst5, htr5⟩ :=
              step5_ok_shape bog execs w4 w5
                (by rw [hst4, hst3, hst2, hst1]; rfl) h5
            rcases h6 : finalWait bog execs w5 with p6 | w6
            · simp only [h6] at hr
              cases hr
            · simp only [h6] at hr
              obtain ⟨hst6, htr6⟩ :=
                finalWait_ok_shape bog execs w5 w6
                  (by rw [hst5, hst4, hst3, hst2, hst1]; rfl) h6
              rcases hL : stGetE w6.st "target_instance_id" with eL | vL
              · simp only [hL] at hr
                cases hr
              · simp only [hL] at hr
                cases hr
                rw [htr6, htr5, htr4, htr3, htr2, htr1]
                simp

/-- The driver's observable trace is the workflow's trace, with a
single trailing `save` exactly when dry-run is off. -/
theorem mainRun_trace (dr : Bool) (cfg : Config) (st0 : St)
    (execs : Nat → ExecOutcome) :
    ∃ w', stepRes (migrate_compute_instance ⟨cfg.source_region, dr⟩
        ⟨cfg.target_region, dr⟩ execs ⟨st0, 0, []⟩) w' ∧
      (mainRun dr cfg st0 execs).trace =
        (if dr then w'.tr else w'.tr ++ [.save]) := by
  unfold mainRun
  rcases hm : migrate_compute_instance ⟨cfg.source_region, dr⟩
      ⟨cfg.target_region, dr⟩ execs ⟨st0, 0, []⟩ with p | w
  · obtain ⟨e, wE⟩ := p
    refine ⟨wE, Or.inr ⟨e, rfl⟩, ?_⟩
    rcases e <;> rcases dr <;> simp [hm]
  · refine ⟨w, Or.inl rfl, ?_⟩
    rcases dr <;> simp [hm]

/-! ### Claims -/

/-- C1 (code_bug evidence): a poll whose first fetch observes a
terminal-failure state (`FAULTED` for images, `FAILED` for work
requests) does not raise the classified `ImageFailed` /
`WorkRequestFailed` error to its caller: that exception is caught by
the poll loop's own `except Exception` handler, and the poller then
aborts with `NameError` at `time.sleep` (the module never imports
`time`), after exactly one fetch. -/
theorem c1_failure_state_eval :
    (wait_for_image_state false "AVAILABLE" execsFaulted).result =
      .error .nameError ∧
    (wait_for_image_state false "AVAILABLE" execsFaulted).caught =
      some (.genericExc "ImageFailed") ∧
    (wait_for_image_state false "AVAILABLE" execsFaulted).fetches = 1 ∧
    (wait_for_work_request false execsWrFailed).result = .error .nameError ∧
    (wait_for_work_request false execsWrFailed).caught =
      some (.genericExc "WorkRequestFailed") ∧
    (wait_for_work_request false execsWrFailed).fetches = 1 :=
  ⟨rfl, rfl, rfl, rfl, rfl, rfl⟩

/-- C2 (code_bug evidence): a dry run of the compute workflow from the
empty record executes zero subprocesses and never calls `save_state`,
but does not complete every step: step 1 raises `KeyError('id')`
because the dry-run placeholder `{"data": {"dry_run_ocid": ...}}` has
no `"id"` field, so the run aborts after step 1's single (simulated)
call. -/
theorem c2_dry_run_eval :
    pySub2 (some dryRunPlaceholder) "data" "id" = .error (.keyError "id") ∧
    (mainRun true cfg0 [] execsCpe).execsUsed = 0 ∧
    (mainRun true cfg0 [] execsCpe).savedState = none ∧
    (mainRun true cfg0 [] execsCpe).wfExc = some (.keyError "id") ∧
    (mainRun true cfg0 [] execsCpe).trace = [.call 1 .runCmd] ∧
    (mainRun true cfg0 [] execsCpe).finalState = [] :=
  ⟨rfl, rfl, rfl, rfl, rfl, rfl⟩

/-- C3 counterexample: in a concrete successful non-dry run from the
empty record, no `save_state` call occurs before step 2 begins (nor
between any later steps): the whole run contains exactly one save, as
its very last event.  The record is therefore not persisted after every
step attempt before the next step starts. -/
theorem c3_counterexample :
    (mainRun false cfg0 [] execsOk).wfExc = none ∧
    ((mainRun false cfg0 [] execsOk).trace.takeWhile
      (fun e => !(e == .call 2 .waitImage))).count .save = 0 ∧
    (Ev.call 2 .waitImage) ∈ (mainRun false cfg0 [] execsOk).trace ∧
    (mainRun false cfg0 [] execsOk).trace.count .save = 1 ∧
    (mainRun false cfg0 [] execsOk).trace.getLast? = some .save := by
  refine ⟨rfl, rfl, by decide, rfl, rfl⟩

/-- C3 (amended): any successful non-dry run from the empty record
commits `source_image_id`, then `source_image_details` together with
`source_image_available`, then `image_export_complete`, then
`target_image_id`, then `target_instance_id`, then
`target_instance_running`, in that order — and the record is persisted
exactly once, as the final action of the run, not after each step. -/
theorem c3_commit_order (cfg : Config) (execs : Nat → ExecOutcome)
    (hok : (mainRun false cfg [] execs).wfExc = none) :
    commitKeys (mainRun false cfg [] execs).trace =
      ["source_image_id", "source_image_details", "source_image_available",
       "image_export_complete", "target_image_id", "target_instance_id",
       "target_instance_running"] ∧
    (mainRun false cfg [] execs).trace.count .save = 1 ∧
    (mainRun false cfg [] execs).trace.getLast? = some .save := by
  rcases hm : migrate_compute_instance ⟨cfg.source_region, false⟩
      ⟨cfg.target_region, false⟩ execs ⟨[], 0, []⟩ with p | w
  · obtain ⟨e, wE⟩ := p
    exfalso
    rcases e <;> simp [mainRun, hm] at hok
  · have htr := migrate_ok_trace _ _ execs w hm
    have htrace : (mainRun false cfg [] execs).trace = w.tr ++ [.save] := by
      simp [mainRun, hm]
    rw [htrace, htr]
    exact ⟨rfl, rfl, rfl⟩

/-- C3 witness: the amended statement holds on the concrete successful
run. -/
theorem c3_witness :
    commitKeys (mainRun false cfg0 [] execsOk).trace =
      ["source_image_id", "source_image_details", "source_image_available",
       "image_export_complete", "target_image_id", "target_instance_id",
       "target_instance_running"] ∧
    (mainRun false cfg0 [] execsOk).trace.count .save = 1 ∧
    (mainRun false cfg0 [] execsOk).trace.getLast? = some .save :=
  c3_commit_order cfg0 execsOk rfl

/-- C4: in non-dry-run mode, whenever a poll loop's first fetch
observes a non-terminal state or a caught fetch error, control reaches
`time.sleep` and raises `NameError` (the module never imports `time`),
aborting the poll instead of sleeping and fetching again. -/
theorem c4_poller_nameerror :
    (∀ (target : String) (execs : Nat → ExecOutcome), target ≠ "" →
      imageFirstObsNonTerminal target execs →
      (wait_for_image_state false target execs).result = .error .nameError) ∧
    (∀ execs : Nat → ExecOutcome, wrFirstObsNonTerminal execs →
      (wait_for_work_request false execs).result = .error .nameError) := by
  constructor
  · intro target execs htgt hobs
    have ht : (target == "") = false := by simpa using htgt
    rcases hobs with hcpe | ⟨data, hok, hrest⟩
    · simp [wait_for_image_state, ht, hcpe]
    · rcases hrest with ⟨e, he⟩ | ⟨st, hst, hj1, hj2, hj3⟩
      · simp [wait_for_image_state, ht, hok, he]
      · simp [wait_for_image_state, ht, hok, hst, hj1, hj2, hj3]
  · intro execs hobs
    rcases hobs with hcpe | ⟨data, hok, hrest⟩
    · simp [wait_for_work_request, hcpe]
    · rcases hrest with ⟨e, he⟩ | ⟨st, hst, hj1, hj2, hj3⟩
      · simp [wait_for_work_request, hok, he]
      · simp [wait_for_work_request, hok, hst, hj1, hj2, hj3]

/-- C4 witness: concrete non-terminal first observations
(`PROVISIONING` for an image, `IN_PROGRESS` for a work request) make
both pollers abort with `NameError`. -/
theorem c4_witness :
    (wait_for_image_state false "AVAILABLE" execsProvisioning).result =
      .error .nameError ∧
    (wait_for_work_request false execsWrInProgress).result =
      .error .nameError := by
  constructor
  · refine c4_poller_nameerror.1 "AVAILABLE" execsProvisioning (by decide) ?_
    exact Or.inr ⟨some (jobj [("data",
      jobj [("lifecycle-state", .str "PROVISIONING")])]), rfl,
      Or.inr ⟨some (.str "PROVISIONING"), rfl, rfl, rfl, rfl⟩⟩
  · refine c4_poller_nameerror.2 execsWrInProgress ?_
    exact Or.inr ⟨some (jobj [("data",
      jobj [("status", .str "IN_PROGRESS")])]), rfl,
      Or.inr ⟨some (.str "IN_PROGRESS"), rfl, rfl, rfl, rfl⟩⟩

/-- C5: a remote command failing with `CalledProcessError` on every
attempt is attempted exactly 5 times; the four inter-attempt delays
follow `wait_exponential(multiplier=2, min=5, max=60)` — they start at
the 5-second floor, are non-decreasing and capped at 60 seconds — and
the `CalledProcessError` is re-raised after the final attempt. -/
theorem c5_retry_bound (execs : Nat → ExecOutcome)
    (h : ∀ n, execs n = .cpe) :
    (run_command false execs).result = .error .calledProcessError ∧
    (run_command false execs).attempts = 5 ∧
    (run_command false execs).delays =
      (List.range 4).map (fun i => wait_exponential 2 5 60 (i + 1)) ∧
    (run_command false execs).delays = [5, 5, 8, 16] ∧
    (run_command false execs).delays.head? = some 5 ∧
    List.Pairwise (· ≤ ·) (run_command false execs).delays ∧
    (∀ d ∈ (run_command false execs).delays, 5 ≤ d ∧ d ≤ 60) := by
  have hrc : run_command false execs =
      ⟨.error .calledProcessError, 5, [5, 5, 8, 16]⟩ := by
    simp [run_command, retryLoop, attemptOnce, h, wait_exponential]
  rw [hrc]
  exact ⟨rfl, rfl, by decide, rfl, rfl, by decide, by decide⟩

/-- C5 witness: the retry bound evaluated on the always-failing
oracle. -/
theorem c5_witness :
    (run_command false execsCpe).result = .error .calledProcessError ∧
    (run_command false execsCpe).attempts = 5 ∧
    (run_command false execsCpe).delays =
      (List.range 4).map (fun i => wait_exponential 2 5 60 (i + 1)) ∧
    (run_command false execsCpe).delays = [5, 5, 8, 16] ∧
    (run_command false execsCpe).delays.head? = some 5 ∧
    List.Pairwise (· ≤ ·) (run_command false execsCpe).delays ∧
    (∀ d ∈ (run_command false execsCpe).delays, 5 ≤ d ∧ d ≤ 60) :=
  c5_retry_bound execsCpe (fun _ => rfl)

/-- C6: a step whose guard key is already present (and truthy where the
guard tests truthiness) in the record at entry is never touched: no
client-method invocation of the run is tagged with that step; and the
step tags of the run's invocations are non-decreasing — steps are
attempted strictly in their fixed order. -/
theorem c6_skip_no_calls (dr : Bool) (cfg : Config) (st0 : St)
    (execs : Nat → ExecOutcome) (i : Nat)
    (hdone : guardDone i st0 = true) :
    (∀ p ∈ callsOf (mainRun dr cfg st0 execs).trace, p.1 ≠ i) ∧
    List.Pairwise (· ≤ ·)
      ((callsOf (mainRun dr cfg st0 execs).trace).map Prod.fst) := by
  obtain ⟨w', hres, htr⟩ := mainRun_trace dr cfg st0 execs
  have hcallseq : callsOf (mainRun dr cfg st0 execs).trace = callsOf w'.tr := by
    rw [htr]
    rcases dr with _ | _
    · simp [callsOf_append, callsOf]
    · simp
  have hprot := migrate_protected _ _ execs ⟨st0, 0, []⟩ w' i hdone hres
  have hsort := migrate_callsLe _ _ execs ⟨st0, 0, []⟩ w'
    (by constructor <;> simp [callsOf]) hres
  constructor
  · intro p hp
    rw [hcallseq] at hp
    rcases hprot.2 p hp with hin | hne
    · simp [callsOf] at hin
    · exact hne
  · rw [hcallseq]
    exact hsort.1

/-- C6 witness: on the resumed record (steps 1-4 committed), the run
issues no step-3 invocation. -/
theorem c6_witness :
    (3, Method.runCmd) ∉ callsOf (mainRun false cfg0 stResume execsResume).trace := by
  intro hmem
  exact (c6_skip_no_calls false cfg0 stResume execsResume 3 (by decide)).1
    _ hmem rfl

/-- C7 (code_bug evidence): on the fetched-state sequence
`PROVISIONING, PROVISIONING, AVAILABLE`, `wait_for_image_state` does
not return the third fetch's data: it performs exactly one fetch and
then raises `NameError` at `time.sleep` (`time` is never imported). -/
theorem c7_ppa_eval :
    (wait_for_image_state false "AVAILABLE" execsPPA).result =
      .error .nameError ∧
    (wait_for_image_state false "AVAILABLE" execsPPA).fetches = 1 ∧
    (wait_for_image_state false "AVAILABLE" execsPPA).execsUsed = 1 :=
  ⟨rfl, rfl, rfl⟩

/-- C8: a remote command that exits successfully but with stdout that
is not valid JSON fails on the first attempt with `SystemExit(1)`
(`sys.exit(1)` from the `json.JSONDecodeError` handler): one
execution, no retry, no delay. -/
theorem c8_protocol_failure (execs : Nat → ExecOutcome)
    (h : execs 0 = .ok .invalid) :
    (run_command false execs).result = .error (.systemExit 1) ∧
    (run_command false execs).attempts = 1 ∧
    (run_command false execs).delays = [] := by
  have hrc : run_command false execs = ⟨.error (.systemExit 1), 1, []⟩ := by
    simp [run_command, retryLoop, attemptOnce, h]
  rw [hrc]
  exact ⟨rfl, rfl, rfl⟩

/-- C8 witness: the protocol failure evaluated on the invalid-stdout
oracle. -/
theorem c8_witness :
    (run_command false execsInvalid).result = .error (.systemExit 1) ∧
    (run_command false execsInvalid).attempts = 1 ∧
    (run_command false execsInvalid).delays = [] :=
  c8_protocol_failure execsInvalid rfl

/-- C9 counterexample: a protocol failure in the first remote call
raises `SystemExit(1)` out of the workflow; `main`'s
`except Exception` does not catch it, so (after the `finally` save)
the process terminates with exit status 1 — a failed run that IS
distinguishable from a successful one by exit status. -/
theorem c9_counterexample :
    (mainRun false cfg0 [] execsInvalid).wfExc = some (.systemExit 1) ∧
    (mainRun false cfg0 [] execsInvalid).exitCode = 1 ∧
    (mainRun false cfg0 [] execsInvalid).savedState = some [] :=
  ⟨rfl, rfl, rfl⟩

/-- C9 (amended): every `Exception`-class exception raised out of the
workflow is caught by `main`, which saves the record (unless dry-run)
and returns normally with exit status 0; but a `SystemExit` from the
protocol-failure path escapes `except Exception` — the `finally` save
still runs, and the process exits with the nonzero status. -/
theorem c9_amended (dr : Bool) (cfg : Config) (st0 : St)
    (execs : Nat → ExecOutcome) (e : PyExc) (w' : W)
    (hrun : migrate_compute_instance ⟨cfg.source_region, dr⟩
      ⟨cfg.target_region, dr⟩ execs ⟨st0, 0, []⟩ = .error (e, w')) :
    (e.isException = true →
      (mainRun dr cfg st0 execs).exitCode = 0 ∧
      (mainRun dr cfg st0 execs).wfExc = some e ∧
      (mainRun dr cfg st0 execs).savedState =
        (if dr then none else some w'.st)) ∧
    (∀ c, e = .systemExit c →
      (mainRun dr cfg st0 execs).exitCode = c ∧
      (mainRun dr cfg st0 execs).savedState =
        (if dr then none else some w'.st)) := by
  constructor
  · intro hexc
    rcases e <;> simp_all [mainRun, hrun, PyExc.isException]
  · rintro c rfl
    constructor <;> simp [mainRun, hrun]

/-- C9 witness: the dry-run `KeyError('id')` failure is caught and the
driver returns normally with no save. -/
theorem c9_witness :
    (mainRun true cfg0 [] execsCpe).exitCode = 0 ∧
    (mainRun true cfg0 [] execsCpe).wfExc = some (.keyError "id") ∧
    (mainRun true cfg0 [] execsCpe).savedState = none := by
  have h := (c9_amended true cfg0 [] execsCpe (.keyError "id")
    ⟨[], 0, [.call 1 .runCmd]⟩ rfl).1 rfl
  simpa using h

/-- C10: step 4 commits `target_image_id` immediately after the import
call returns and only then invokes the availability wait (its trace
contribution is always the import call, optionally followed by the
commit and then the wait); and on any run entered with
`target_image_id` already present, no step-4 invocation at all (in
particular no availability wait) occurs — as the concrete resumed run
shows, step 5 then launches the instance directly. -/
theorem c10_commit_before_wait :
    (∀ (bog : Client) (execs : Nat → ExecOutcome) (w w' : W),
      guardDone 4 w.st = false → stepRes (step4 bog execs w) w' →
      ∃ ts, w'.tr = w.tr ++ ts ∧
        (ts = [] ∨ ts = [.call 4 .runCmd] ∨
         ts = [.call 4 .runCmd, .commit "target_image_id",
               .call 4 .waitImage])) ∧
    (∀ (dr : Bool) (cfg : Config) (st0 : St) (execs : Nat → ExecOutcome),
      guardDone 4 st0 = true →
      ∀ p ∈ callsOf (mainRun dr cfg st0 execs).trace, p.1 ≠ 4) ∧
    ((mainRun false cfg0 stResume execsResume).wfExc = none ∧
     (mainRun false cfg0 stResume execsResume).trace =
       [.call 5 .runCmd, .commit "target_instance_id",
        .call 6 .runCmd, .commit "target_instance_running", .save]) := by
  refine ⟨step4_shapes, ?_, rfl, rfl⟩
  intro dr cfg st0 execs hdone p hp
  obtain ⟨w', hres, htr⟩ := mainRun_trace dr cfg st0 execs
  rw [htr] at hp
  have hp' : p ∈ callsOf w'.tr := by
    rcases dr with _ | _ <;>
      simp only [Bool.false_eq_true, if_false, if_true] at hp
    · rw [callsOf_append] at hp
      rcases List.mem_append.mp hp with h1 | h2
      · exact h1
      · simp [callsOf] at h2
    · exact hp
  have hprot := migrate_protected _ _ execs ⟨st0, 0, []⟩ w' 4 hdone hres
  rcases hprot.2 p hp' with hin | hne
  · simp [callsOf] at hin
  · exact hne

/-- C10 witness: on the resumed record the run contains no
step-4 import call. -/
theorem c10_witness :
    (4, Method.runCmd) ∉
      callsOf (mainRun false cfg0 stResume execsResume).trace := by
  intro hmem
  exact c10_commit_before_wait.2.1 false cfg0 stResume execsResume
    (by decide) _ hmem rfl

end OciMig
